import Mathlib

/-!
Verification of the TopNotchNotes harness core (audio acquisition and
telemetry pipeline) against its natural-language specification.

The C++ sources are shallowly embedded: each C++ class becomes a Lean
structure, member functions become pure Lean functions on that structure
(stateful code is explicit state passing), machine integers are `Nat`
with explicit `% 2 ^ 32` where the C++ performs a `uint32_t` cast, and
fallible operations return `Option` / a success flag.  Since the ring
buffer's capacity is constrained to a power of two, the C++ bitmask
`x & (Capacity - 1)` equals `x % Capacity`; the embedding uses `%`.
-/

/-- Model of `harness::RingBuffer<T, Capacity>` (lock-free SPSC ring
buffer).  The template parameter `Capacity` becomes the field `cap`; the
backing `std::array` becomes a total function from indices to values. -/
structure RingBuffer (α : Type) where
  cap : Nat
  buf : Nat → α
  write_index : Nat
  read_index : Nat

/-- A freshly default-constructed ring buffer: both indices zero.  The
array contents are default-initialized to `d`. -/
def RingBuffer.mkEmpty (cap : Nat) (d : α) : RingBuffer α :=
  ⟨cap, fun _ => d, 0, 0⟩

/-- `RingBuffer::push(const T&)`: fails (returns `false`) when advancing
the write index would collide with the read index; otherwise stores the
value at the write index and advances it. -/
def RingBuffer.push (s : RingBuffer α) (v : α) : RingBuffer α × Bool :=
  if (s.write_index + 1) % s.cap = s.read_index then
    (s, false)
  else
    ({ s with
        buf := fun j => if j = s.write_index then v else s.buf j
        write_index := (s.write_index + 1) % s.cap }, true)

/-- `RingBuffer::pop()`: returns `none` when the buffer is empty,
otherwise the element at the read index, advancing it. -/
def RingBuffer.pop (s : RingBuffer α) : Option α × RingBuffer α :=
  if s.read_index = s.write_index then
    (none, s)
  else
    (some (s.buf s.read_index),
     { s with read_index := (s.read_index + 1) % s.cap })

/-- `RingBuffer::push(std::span<const T>)`: pushes elements one by one,
stopping at the first failure; returns the count actually pushed. -/
def RingBuffer.pushSpan (s : RingBuffer α) : List α → Nat × RingBuffer α
  | [] => (0, s)
  | v :: rest =>
    if (s.push v).2 then
      let res := (s.push v).1.pushSpan rest
      (res.1 + 1, res.2)
    else
      (0, (s.push v).1)

/-- `RingBuffer::pop(std::span<T>)` popping up to `n` elements, stopping
when the buffer runs empty; returns the values actually popped (their
count in the C++).  A failed `pop()` leaves the buffer unchanged, so the
early exit returns the state as is. -/
def RingBuffer.popN (s : RingBuffer α) : Nat → List α × RingBuffer α
  | 0 => ([], s)
  | n + 1 =>
    match s.pop.1 with
    | some v =>
      let res := (s.pop).2.popN n
      (v :: res.1, res.2)
    | none => ([], s)

/-- Pushing a whole list by repeated single-element `push` calls,
keeping only the final state (the "singly" variant of a batch push). -/
def RingBuffer.pushAll (s : RingBuffer α) (ws : List α) : RingBuffer α :=
  ws.foldl (fun t v => (t.push v).1) s

/-- A single-element producer/consumer operation on the ring buffer. -/
inductive RBOp (α : Type) where
  | pushOp (v : α)
  | popOp

/-- Run a sequence of single-element push/pop operations, returning the
final buffer together with the number of successful pushes and the
number of successful pops. -/
def runOps (s : RingBuffer α) : List (RBOp α) → RingBuffer α × Nat × Nat
  | [] => (s, 0, 0)
  | RBOp.pushOp v :: rest =>
    let res := runOps (s.push v).1 rest
    (res.1, (if (s.push v).2 then 1 else 0) + res.2.1, res.2.2)
  | RBOp.popOp :: rest =>
    let res := runOps (s.pop).2 rest
    (res.1, res.2.1, (if (s.pop).1.isSome then 1 else 0) + res.2.2)

/-- `RingBuffer::size()`: `(write_index - read_index + Capacity) & mask`,
i.e. `(write_index + Capacity - read_index) % Capacity` for in-range
indices. -/
def RingBuffer.size (s : RingBuffer α) : Nat :=
  (s.write_index + s.cap - s.read_index) % s.cap

/-- `RingBuffer::empty()`. -/
def RingBuffer.isEmpty (s : RingBuffer α) : Bool :=
  s.read_index = s.write_index

/-- `RingBuffer::full()`. -/
def RingBuffer.full (s : RingBuffer α) : Bool :=
  (s.write_index + 1) % s.cap = s.read_index

/-- `RingBuffer::available()`. -/
def RingBuffer.available (s : RingBuffer α) : Nat :=
  s.cap - s.size - 1

/-- Well-formedness: positive capacity and in-range indices.  This holds
for the C++ object at all times because indices are always reduced by the
bitmask and the capacity template argument is a (positive) power of
two. -/
def RingBuffer.Wf (s : RingBuffer α) : Prop :=
  0 < s.cap ∧ s.write_index < s.cap ∧ s.read_index < s.cap

instance (s : RingBuffer α) : Decidable s.Wf := by
  unfold RingBuffer.Wf; infer_instance

/-- Abstraction: the queue contents, oldest first, as a list. -/
def RingBuffer.contents (s : RingBuffer α) : List α :=
  (List.range s.size).map fun i => s.buf ((s.read_index + i) % s.cap)

-- ============================================================================
-- harness::io::WavHeader / WavWriter (main.cpp, io module)
-- ============================================================================

/-- Model of `harness::io::WavHeader` (44-byte RIFF/WAVE header).  The
four fixed tag byte arrays (`RIFF`, `WAVE`, `fmt `, `data`) are constants
and are omitted; the integer fields are kept, with `uint32_t`/`uint16_t`
truncation made explicit where the C++ casts. -/
structure WavHeader where
  file_size : Nat := 0
  fmt_size : Nat := 16
  audio_format : Nat := 3
  num_channels : Nat := 1
  sample_rate : Nat := 48000
  byte_rate : Nat := 0
  block_align : Nat := 0
  bits_per_sample : Nat := 32
  data_size : Nat := 0
  deriving DecidableEq, Repr

/-- `WavHeader::configure(rate, channels)`. -/
def WavHeader.configure (h : WavHeader) (rate channels : Nat) : WavHeader :=
  let h1 := { h with sample_rate := rate, num_channels := channels }
  let bytes_per_sample := h1.bits_per_sample / 8
  let block_align := (h1.num_channels * bytes_per_sample) % 2 ^ 16
  { h1 with
      block_align := block_align
      byte_rate := (h1.sample_rate * block_align) % 2 ^ 32 }

/-- `WavHeader::finalize(data_bytes)`: `data_size` is the payload byte
count cast to `uint32_t`; `file_size` is `36 + data_size`. -/
def WavHeader.finalize (h : WavHeader) (data_bytes : Nat) : WavHeader :=
  let ds := data_bytes % 2 ^ 32
  { h with data_size := ds, file_size := (36 + ds) % 2 ^ 32 }

/-- One operation performed on the underlying `std::ofstream`. -/
inductive WOp where
  | seekTo (pos : Nat)
  | putHeader (h : WavHeader)
  | putSamples (n : Nat)
  deriving DecidableEq, Repr

/-- Model of `harness::io::WavWriter`.  `ops` is the ordered log of file
operations; `isOpen` models `file_.is_open()`. -/
structure WavWriter where
  isOpen : Bool
  header : WavHeader
  samples_written : Nat
  ops : List WOp
  deriving DecidableEq, Repr

/-- The `WavWriter` private constructor after a successful file open:
configures the header and writes the placeholder header (at file start). -/
def WavWriter.create (sample_rate channels : Nat) : WavWriter :=
  let h := WavHeader.configure {} sample_rate channels
  { isOpen := true, header := h, samples_written := 0,
    ops := [WOp.putHeader h] }

/-- `WavWriter::write(samples)` for a span holding `n` floats: appends
the raw bytes and advances `samples_written_`; fails only when the file
is not open. -/
def WavWriter.write (w : WavWriter) (n : Nat) : WavWriter × Bool :=
  if w.isOpen then
    ({ w with
        ops := w.ops ++ [WOp.putSamples n]
        samples_written := w.samples_written + n }, true)
  else (w, false)

/-- A sequence of `WavWriter::write` calls with the given sample
counts. -/
def WavWriter.writeMany (w : WavWriter) (ns : List Nat) : WavWriter :=
  ns.foldl (fun t n => (t.write n).1) w

/-- `WavWriter::close()`: a no-op when the file is already closed;
otherwise finalizes the header with `samples_written_ * sizeof(float)`,
seeks to offset 0, rewrites the header and closes the file. -/
def WavWriter.close (w : WavWriter) : WavWriter :=
  if w.isOpen then
    let h := w.header.finalize (w.samples_written * 4)
    { w with
        isOpen := false
        header := h
        ops := w.ops ++ [WOp.seekTo 0, WOp.putHeader h] }
  else w

-- ============================================================================
-- harness::io::AsyncWriter (main.cpp, io module)
-- ============================================================================

/-- `AsyncWriter::max_queue_size`. -/
def max_queue_size : Nat := 100

/-- Model of `harness::io::AsyncWriter`.  `queue` holds the pending
copied chunks; `fileBytes` is what the background thread has already
written to disk; `bytes_written` models the `bytes_written_` counter. -/
structure AsyncWriter where
  isOpen : Bool
  queue : List (List Nat)
  fileBytes : List Nat
  bytes_written : Nat
  deriving DecidableEq, Repr

/-- `AsyncWriter::write_bytes(data)`: returns `false` when the writer is
closed or the queue is at `max_queue_size` (the data is dropped);
otherwise enqueues a copy and returns `true`. -/
def AsyncWriter.write_bytes (a : AsyncWriter) (data : List Nat) :
    AsyncWriter × Bool :=
  if a.isOpen = false then (a, false)
  else if max_queue_size ≤ a.queue.length then (a, false)
  else ({ a with queue := a.queue ++ [data] }, true)

/-- `AsyncWriter::close()`: a no-op when already closed (the
`is_open_.exchange(false)` guard); otherwise signals shutdown and joins
the background thread, which drains the whole queue to disk before
exiting. -/
def AsyncWriter.close (a : AsyncWriter) : AsyncWriter :=
  if a.isOpen then
    { isOpen := false, queue := [],
      fileBytes := a.fileBytes ++ a.queue.flatten,
      bytes_written := a.bytes_written + (a.queue.map List.length).sum }
  else a

-- ============================================================================
-- harness::telemetry::json_escape (telemetry.ixx)
-- ============================================================================

/-- Lowercase hexadecimal digit as produced by `std::format "{:04x}"`. -/
def hexDigit (n : Nat) : Nat :=
  if n < 10 then 48 + n else 87 + n

/-- The per-character escaping of `json_escape`, on byte values
(characters viewed through `static_cast<unsigned char>`). -/
def json_escape_char (c : Nat) : List Nat :=
  if c = 34 then [92, 34]
  else if c = 92 then [92, 92]
  else if c = 8 then [92, 98]
  else if c = 12 then [92, 102]
  else if c = 10 then [92, 110]
  else if c = 13 then [92, 114]
  else if c = 9 then [92, 116]
  else if c < 32 then
    [92, 117, hexDigit (c / 4096 % 16), hexDigit (c / 256 % 16),
     hexDigit (c / 16 % 16), hexDigit (c % 16)]
  else [c]

/-- `harness::telemetry::json_escape` on a string viewed as its byte
values. -/
def json_escape (input : List Nat) : List Nat :=
  (input.map json_escape_char).flatten

-- ============================================================================
-- Recording state machine and command handlers (main.cpp)
-- ============================================================================

/-- `harness::RecordingState`. -/
inductive RecordingState where
  | Idle
  | Recording
  | Paused
  | Error
  deriving DecidableEq, Repr

/-- `harness::to_string(RecordingState)`. -/
def RecordingState.toStr : RecordingState → String
  | RecordingState.Idle => "idle"
  | RecordingState.Recording => "recording"
  | RecordingState.Paused => "paused"
  | RecordingState.Error => "error"

/-- `harness::Command`. -/
inductive Command where
  | Start
  | Stop
  | Pause
  | Resume
  | Kill
  | Status
  | Unknown
  deriving DecidableEq, Repr

/-- `harness::parse_command`. -/
def parse_command (cmd : String) : Command :=
  if cmd = "START" then Command.Start
  else if cmd = "STOP" then Command.Stop
  else if cmd = "PAUSE" then Command.Pause
  else if cmd = "RESUME" then Command.Resume
  else if cmd = "KILL" then Command.Kill
  else if cmd = "STATUS" then Command.Status
  else Command.Unknown

/-- A telemetry event, abstracted from the JSON line it serializes to. -/
inductive Event where
  | errorEvt (msg : String)
  | statusEvt (st : String)
  | infoEvt (msg : String)
  | levelEvt (db : Int)
  | textEvt (body : String)
  | sessionStartEvt (id path : String)
  | sessionEndEvt (id : String) (bytes : Nat) (dur : Nat)
  deriving DecidableEq, Repr

/-- Model of the `Session` struct in main.cpp.  The steady-clock start
time is a `Nat` tick; the transcript `std::ofstream` is the list of
strings written to it; the transcription engine is kept only as a
presence flag (the non-null check is all the state machine reads). -/
structure Session where
  id : String
  output_dir : String
  start_time : Nat
  audio_writer : WavWriter
  transcriber_present : Bool
  transcript : List String
  frame_count : Nat
  deriving DecidableEq, Repr

/-- The global state of main.cpp: `g_state`, `g_session`,
`g_should_exit`. -/
structure GState where
  state : RecordingState
  session : Option Session
  should_exit : Bool
  deriving DecidableEq, Repr

/-- The environment a `START` command draws from the outside world: the
generated session id, the outcome of `io::WavWriter::create` (which
fails when the audio file cannot be opened), and the current clock. -/
structure StartEnv where
  session_id : String
  writer_result : Except String Unit
  now : Nat

/-- `cmd::start_recording`: rejected while `Recording`; aborted (state
untouched) when the audio writer cannot be created; otherwise installs a
fresh session and moves to `Recording`, emitting session-start and
status events. -/
def cmd_start_recording (env : StartEnv) (output_dir : String)
    (g : GState) : GState × List Event :=
  if g.state = RecordingState.Recording then
    (g, [Event.errorEvt "Already recording"])
  else
    let session_path :=
      (if output_dir = "" then "recordings" else output_dir)
        ++ "/" ++ env.session_id
    match env.writer_result with
    | Except.error e =>
      (g, [Event.errorEvt ("Failed to create audio file: " ++ e)])
    | Except.ok _ =>
      let sess : Session :=
        { id := env.session_id
          output_dir := session_path
          start_time := env.now
          audio_writer := WavWriter.create 48000 1
          transcriber_present := true
          transcript :=
            ["# Recording Session: " ++ env.session_id ++ "\n\n", "---\n\n"]
          frame_count := 0 }
      ({ g with state := RecordingState.Recording, session := some sess },
       [Event.sessionStartEvt env.session_id session_path,
        Event.statusEvt "recording"])

/-- `cmd::stop_recording`: rejected while `Idle`; otherwise closes the
audio writer and transcript, emits a session-end event with the byte
count `samples_written() * sizeof(float)` and the elapsed duration,
discards the session and returns to `Idle`. -/
def cmd_stop_recording (now : Nat) (g : GState) : GState × List Event :=
  if g.state = RecordingState.Idle then
    (g, [Event.errorEvt "Not recording"])
  else
    match g.session with
    | some sess =>
      let duration := now - sess.start_time
      let w := sess.audio_writer.close
      ({ g with state := RecordingState.Idle, session := none },
       [Event.sessionEndEvt sess.id (w.samples_written * 4) duration,
        Event.statusEvt "idle"])
    | none =>
      ({ g with state := RecordingState.Idle, session := none },
       [Event.statusEvt "idle"])

/-- `cmd::pause_recording`. -/
def cmd_pause_recording (g : GState) : GState × List Event :=
  if g.state = RecordingState.Recording then
    ({ g with state := RecordingState.Paused }, [Event.statusEvt "paused"])
  else
    (g, [Event.errorEvt "Not recording"])

/-- `cmd::resume_recording`. -/
def cmd_resume_recording (g : GState) : GState × List Event :=
  if g.state = RecordingState.Paused then
    ({ g with state := RecordingState.Recording },
     [Event.statusEvt "recording"])
  else
    (g, [Event.errorEvt "Not paused"])

/-- `handle_command` in main.cpp: dispatch to the handlers. -/
def handle_command (env : StartEnv) (command : Command)
    (output_dir : String) (g : GState) : GState × List Event :=
  match command with
  | Command.Start => cmd_start_recording env output_dir g
  | Command.Stop => cmd_stop_recording env.now g
  | Command.Pause => cmd_pause_recording g
  | Command.Resume => cmd_resume_recording g
  | Command.Status => (g, [Event.statusEvt g.state.toStr])
  | Command.Kill =>
    let res :=
      if g.state = RecordingState.Recording then cmd_stop_recording env.now g
      else (g, [])
    ({ res.1 with should_exit := true },
     res.2 ++ [Event.infoEvt "Shutting down"])
  | Command.Unknown => (g, [Event.errorEvt "Unknown command"])

-- ============================================================================
-- Per-frame processing (main.cpp, process_audio_frame)
-- ============================================================================

/-- What one frame's processing draws from the outside world: the
computed RMS level (a float, abstracted to an `Int` label) and the
result of the voice-activity-gated transcription attempt (`some text`
exactly when VAD fired and the engine produced text). -/
structure FrameEnv where
  db : Int
  transcribed : Option String

/-- `process_audio_frame`: a no-op unless a session is active and the
state is `Recording`; otherwise writes the frame to the audio writer,
emits a level event every 5th frame, appends transcribed text (if any)
to the telemetry stream and transcript, and advances the frame
counter. -/
def process_audio_frame (fe : FrameEnv) (frame_len : Nat) (g : GState) :
    GState × List Event :=
  match g.session with
  | none => (g, [])
  | some sess =>
    if g.state ≠ RecordingState.Recording then (g, [])
    else
      let w := (sess.audio_writer.write frame_len).1
      let levelEvents :=
        if sess.frame_count % 5 = 0 then [Event.levelEvt fe.db] else []
      let textPart :=
        if sess.transcriber_present then
          match fe.transcribed with
          | some t => ([Event.textEvt t], sess.transcript ++ [t ++ " "])
          | none => ([], sess.transcript)
        else ([], sess.transcript)
      ({ g with session := some { sess with
            audio_writer := w
            transcript := textPart.2
            frame_count := sess.frame_count + 1 } },
       levelEvents ++ textPart.1)

/-- Process frames `i, i+1, ..., i+n-1` in order, collecting the events
emitted by each frame separately. -/
def run_frames (fe : Nat → FrameEnv) (len : Nat → Nat) :
    Nat → Nat → GState → GState × List (List Event)
  | _, 0, g => (g, [])
  | i, n + 1, g =>
    let step := process_audio_frame (fe i) (len i) g
    let res := run_frames fe len (i + 1) n step.1
    (res.1, step.2 :: res.2)

/-- Whether an event list contains a Level telemetry event. -/
def has_level (evs : List Event) : Bool :=
  evs.any fun e =>
    match e with
    | Event.levelEvt _ => true
    | _ => false

/-- Number of Level telemetry events in an event list. -/
def count_levels (evs : List Event) : Nat :=
  (evs.filter fun e =>
    match e with
    | Event.levelEvt _ => true
    | _ => false).length

-- ============================================================================
-- harness::audio::AudioDevice::try_get_data (miniaudio implementation)
-- ============================================================================

/-- The fields of `harness::audio::DeviceConfig` that `try_get_data`
reads. -/
structure DeviceConfig where
  sample_rate : Nat := 48000
  channels : Nat := 1
  buffer_frames : Nat := 1024
  deriving DecidableEq, Repr

/-- The part of `AudioDevice` that `try_get_data` touches: the config,
the `data_ready_` flag and the sample ring buffer (float samples
abstracted to `Int`). -/
structure AudioDevice where
  config : DeviceConfig
  data_ready : Bool
  ring : RingBuffer Int

/-- `AudioDevice::try_get_data()`: non-blocking; returns `none` when no
data is flagged ready or when fewer than half a period's samples are
buffered; otherwise pops `min(available, buffer_frames * channels)`
samples and returns them as the frame, clearing `data_ready_` when less
than a full period remains. -/
def AudioDevice.try_get_data (d : AudioDevice) :
    Option (List Int) × AudioDevice :=
  if d.data_ready = false then (none, d)
  else
    let expected_samples := d.config.buffer_frames * d.config.channels
    let available := d.ring.size
    if available < expected_samples / 2 then (none, d)
    else
      let to_read := min available expected_samples
      let res := d.ring.popN to_read
      let ready' :=
        if res.2.size < expected_samples then false else d.data_ready
      (some res.1, { d with data_ready := ready', ring := res.2 })

-- ============================================================================
-- Modular arithmetic helpers
-- ============================================================================

theorem mod_of_lt_two_mul {x c : Nat} (_hc : 0 < c) (h : x < 2 * c) :
    x % c = if x < c then x else x - c := by
  split
  · exact Nat.mod_eq_of_lt ‹_›
  · rw [Nat.mod_eq_sub_mod (by omega)]
    exact Nat.mod_eq_of_lt (by omega)

theorem RingBuffer.size_spec (s : RingBuffer α) (hw : s.Wf) :
    s.size = if s.read_index ≤ s.write_index
      then s.write_index - s.read_index
      else s.write_index + s.cap - s.read_index := by
  obtain ⟨hc, hwi, hri⟩ := hw
  unfold RingBuffer.size
  rw [mod_of_lt_two_mul hc (by omega)]
  split <;> split <;> omega

theorem RingBuffer.size_lt (s : RingBuffer α) (hw : s.Wf) : s.size < s.cap := by
  have := s.size_spec hw
  obtain ⟨hc, hwi, hri⟩ := hw
  split at this <;> omega

theorem RingBuffer.size_eq_zero_iff (s : RingBuffer α) (hw : s.Wf) :
    s.size = 0 ↔ s.read_index = s.write_index := by
  have := s.size_spec hw
  obtain ⟨-, hwi, hri⟩ := hw
  split at this <;> omega

-- ============================================================================
-- Single push / pop: effect on size and well-formedness
-- ============================================================================

theorem RingBuffer.push_fail_eq (s : RingBuffer α) (v : α)
    (h : (s.push v).2 = false) : (s.push v).1 = s := by
  unfold RingBuffer.push at *
  split at h <;> simp_all

/-- The push failure condition `(write_index + 1) % cap = read_index` is
equivalent to the buffer holding `cap - 1` elements. -/
theorem RingBuffer.full_cond_iff (s : RingBuffer α) (hw : s.Wf) :
    ((s.write_index + 1) % s.cap = s.read_index) ↔ s.size = s.cap - 1 := by
  have hs := s.size_spec hw
  obtain ⟨hc, hwi, hri⟩ := hw
  rw [mod_of_lt_two_mul hc (by omega)]
  split at hs <;> split <;> omega

theorem RingBuffer.push_snd_false_iff (s : RingBuffer α) (v : α) :
    ((s.push v).2 = false) ↔ (s.write_index + 1) % s.cap = s.read_index := by
  unfold RingBuffer.push
  split
  · rename_i h; simpa using h
  · rename_i h; simpa using h

theorem RingBuffer.push_fail_iff (s : RingBuffer α) (v : α) (hw : s.Wf) :
    (s.push v).2 = false ↔ s.size = s.cap - 1 :=
  (s.push_snd_false_iff v).trans (s.full_cond_iff hw)

/-- Shape of a successful push: read index and capacity unchanged, write
index advanced, the pushed value stored at the old write index. -/
theorem RingBuffer.push_succ_eq (s : RingBuffer α) (v : α)
    (h : (s.push v).2 = true) :
    (s.push v).1 = { s with
        buf := fun j => if j = s.write_index then v else s.buf j
        write_index := (s.write_index + 1) % s.cap } := by
  unfold RingBuffer.push at *
  split at h <;> simp_all

theorem RingBuffer.push_succ_size (s : RingBuffer α) (v : α) (hw : s.Wf)
    (h : (s.push v).2 = true) :
    (s.push v).1.size = s.size + 1 ∧ (s.push v).1.Wf ∧
      (s.push v).1.cap = s.cap ∧
      (s.push v).1.read_index = s.read_index := by
  have hs := s.size_spec hw
  have hcond : ¬((s.write_index + 1) % s.cap = s.read_index) := by
    intro hc
    rw [← s.push_snd_false_iff v] at hc
    simp [h] at hc
  obtain ⟨hc, hwi, hri⟩ := hw
  rw [s.push_succ_eq v h]
  have hmod := mod_of_lt_two_mul (x := s.write_index + 1) hc (by omega)
  rw [hmod] at hcond
  refine ⟨?_, ⟨hc, ?_, hri⟩, rfl, rfl⟩
  · show ((s.write_index + 1) % s.cap + s.cap - s.read_index) % s.cap
        = s.size + 1
    rw [hmod]
    by_cases hb : s.write_index + 1 < s.cap
    · rw [if_pos hb] at hcond ⊢
      rw [mod_of_lt_two_mul hc (by omega)]
      split at hs <;> split <;> omega
    · rw [if_neg hb] at hcond ⊢
      rw [mod_of_lt_two_mul hc (by omega)]
      split at hs <;> split <;> omega
  · show (s.write_index + 1) % s.cap < s.cap
    exact Nat.mod_lt _ hc

theorem RingBuffer.pop_some_eq (s : RingBuffer α)
    (h : s.read_index ≠ s.write_index) :
    s.pop = (some (s.buf s.read_index),
      { s with read_index := (s.read_index + 1) % s.cap }) := by
  unfold RingBuffer.pop
  rw [if_neg h]

theorem RingBuffer.pop_size (s : RingBuffer α) (hw : s.Wf)
    (h : s.read_index ≠ s.write_index) :
    (s.pop).2.size + 1 = s.size ∧ (s.pop).2.Wf ∧
      (s.pop).2.cap = s.cap ∧ (s.pop).2.write_index = s.write_index ∧
      (s.pop).2.buf = s.buf ∧
      (s.pop).2.read_index = (s.read_index + 1) % s.cap := by
  have hs := s.size_spec hw
  obtain ⟨hc, hwi, hri⟩ := hw
  rw [s.pop_some_eq h]
  have hmod := mod_of_lt_two_mul (x := s.read_index + 1) hc (by omega)
  refine ⟨?_, ⟨hc, hwi, Nat.mod_lt _ hc⟩, rfl, rfl, rfl, rfl⟩
  show (s.write_index + s.cap - (s.read_index + 1) % s.cap) % s.cap + 1
      = s.size
  rw [hmod]
  by_cases hb : s.read_index + 1 < s.cap
  · rw [if_pos hb]
    rw [mod_of_lt_two_mul hc (by omega)]
    split at hs <;> split <;> omega
  · rw [if_neg hb]
    rw [mod_of_lt_two_mul hc (by omega)]
    split at hs <;> split <;> omega

-- ============================================================================
-- Contents abstraction: push appends, pop removes the head
-- ============================================================================

theorem RingBuffer.idx_ne (s : RingBuffer α) (hw : s.Wf) {i : Nat}
    (hi : i < s.size) :
    (s.read_index + i) % s.cap ≠ s.write_index := by
  have hs := s.size_spec hw
  have hlt := s.size_lt hw
  obtain ⟨hc, hwi, hri⟩ := hw
  rw [mod_of_lt_two_mul hc (by omega)]
  split at hs <;> split <;> omega

theorem RingBuffer.idx_size_eq (s : RingBuffer α) (hw : s.Wf) :
    (s.read_index + s.size) % s.cap = s.write_index := by
  have hs := s.size_spec hw
  have hlt := s.size_lt hw
  obtain ⟨hc, hwi, hri⟩ := hw
  rw [mod_of_lt_two_mul hc (by omega)]
  split at hs <;> split <;> omega

theorem RingBuffer.contents_length (s : RingBuffer α) :
    s.contents.length = s.size := by
  simp [RingBuffer.contents]

theorem RingBuffer.contents_push (s : RingBuffer α) (v : α) (hw : s.Wf)
    (h : (s.push v).2 = true) :
    (s.push v).1.contents = s.contents ++ [v] := by
  have hsz := (s.push_succ_size v hw h).1
  rw [s.push_succ_eq v h] at hsz ⊢
  unfold RingBuffer.contents at *
  dsimp only at hsz ⊢
  rw [hsz, List.range_succ, List.map_append]
  congr 1
  · apply List.map_congr_left
    intro i hi
    rw [List.mem_range] at hi
    rw [if_neg (s.idx_ne hw hi)]
  · simp only [List.map_cons, List.map_nil]
    rw [if_pos (s.idx_size_eq hw)]

theorem RingBuffer.contents_pop (s : RingBuffer α) (hw : s.Wf)
    (h : s.read_index ≠ s.write_index) :
    (s.pop).1 = some (s.buf s.read_index) ∧
      s.contents = s.buf s.read_index :: (s.pop).2.contents := by
  have hps := s.pop_size hw h
  obtain ⟨hsz, hw', hcap, hwidx, hbuf, hridx⟩ := hps
  refine ⟨by rw [s.pop_some_eq h], ?_⟩
  unfold RingBuffer.contents
  rw [hcap, hwidx, hbuf, hridx] at *
  rw [← hsz, List.range_succ_eq_map, List.map_cons, List.map_map]
  congr 1
  · have : (s.read_index + 0) % s.cap = s.read_index := by
      rw [Nat.add_zero]
      exact Nat.mod_eq_of_lt hw.2.2
    rw [this]
  · apply List.map_congr_left
    intro i _
    show s.buf ((s.read_index + Nat.succ i) % s.cap)
        = s.buf (((s.read_index + 1) % s.cap + i) % s.cap)
    rw [Nat.mod_add_mod]
    have : s.read_index + Nat.succ i = s.read_index + 1 + i := by omega
    rw [this]

-- ============================================================================
-- Operation sequences: counting successful pushes and pops
-- ============================================================================

theorem runOps_invariant (ops : List (RBOp α)) (s : RingBuffer α)
    (hw : s.Wf) :
    (runOps s ops).1.Wf ∧ (runOps s ops).1.cap = s.cap ∧
      (runOps s ops).1.size + (runOps s ops).2.2
        = s.size + (runOps s ops).2.1 := by
  induction ops generalizing s with
  | nil => simpa [runOps] using hw
  | cons op rest ih =>
    cases op with
    | pushOp v =>
      by_cases hok : (s.push v).2 = true
      · obtain ⟨hsz, hw', hcap, -⟩ := s.push_succ_size v hw hok
        obtain ⟨ihw, ihcap, ihsz⟩ := ih (s.push v).1 hw'
        simp only [runOps, hok, if_true]
        exact ⟨ihw, by omega, by omega⟩
      · rw [Bool.not_eq_true] at hok
        have heq := s.push_fail_eq v hok
        obtain ⟨ihw, ihcap, ihsz⟩ := ih s hw
        simp only [runOps, hok, Bool.false_eq_true, if_false, heq]
        exact ⟨ihw, by omega, by omega⟩
    | popOp =>
      by_cases hr : s.read_index = s.write_index
      · have heq : s.pop = (none, s) := by
          unfold RingBuffer.pop
          rw [if_pos hr]
        obtain ⟨ihw, ihcap, ihsz⟩ := ih s hw
        simp only [runOps, heq, Option.isSome_none, Bool.false_eq_true,
          if_false]
        exact ⟨ihw, by omega, by omega⟩
      · obtain ⟨hsz, hw', hcap, -, -, -⟩ := s.pop_size hw hr
        obtain ⟨ihw, ihcap, ihsz⟩ := ih (s.pop).2 hw'
        have hfst : (s.pop).1 = some (s.buf s.read_index) := by
          rw [s.pop_some_eq hr]
        simp only [runOps, hfst, Option.isSome_some, if_true]
        exact ⟨ihw, by omega, by omega⟩

-- ============================================================================
-- Batch (span) push and pop: prefix transfer and FIFO behaviour
-- ============================================================================

theorem pushSpan_front (ws : List α) (s : RingBuffer α) (hw : s.Wf) :
    (s.pushSpan ws).1 ≤ ws.length ∧ (s.pushSpan ws).2.Wf ∧
      (s.pushSpan ws).2.cap = s.cap ∧
      (s.pushSpan ws).2.contents
        = s.contents ++ ws.take (s.pushSpan ws).1 := by
  induction ws generalizing s with
  | nil => simp [RingBuffer.pushSpan, hw]
  | cons v rest ih =>
    by_cases hok : (s.push v).2 = true
    · obtain ⟨-, hw', hcap, -⟩ := s.push_succ_size v hw hok
      obtain ⟨ihn, ihw, ihcap, ihc⟩ := ih (s.push v).1 hw'
      have hpush := s.contents_push v hw hok
      simp only [RingBuffer.pushSpan, hok, if_true]
      refine ⟨by simpa using Nat.succ_le_succ ihn, ihw, by rw [ihcap, hcap], ?_⟩
      rw [ihc, hpush, List.take_succ_cons, List.append_assoc,
        List.singleton_append]
    · rw [Bool.not_eq_true] at hok
      have heq := s.push_fail_eq v hok
      simp only [RingBuffer.pushSpan, hok, if_false, Bool.false_eq_true, heq]
      exact ⟨Nat.zero_le _, hw, trivial, by simp⟩

theorem pushSpan_all (ws : List α) (s : RingBuffer α) (hw : s.Wf)
    (hfit : s.size + ws.length ≤ s.cap - 1) :
    (s.pushSpan ws).1 = ws.length := by
  induction ws generalizing s with
  | nil => simp [RingBuffer.pushSpan]
  | cons v rest ih =>
    have hok : (s.push v).2 = true := by
      by_contra hbad
      rw [Bool.not_eq_true, s.push_fail_iff v hw] at hbad
      have := s.size_lt hw
      simp only [List.length_cons] at hfit
      omega
    obtain ⟨hsz, hw', hcap, -⟩ := s.push_succ_size v hw hok
    have : (s.push v).1.size + rest.length ≤ (s.push v).1.cap - 1 := by
      rw [hsz, hcap]
      simp only [List.length_cons] at hfit
      omega
    simp only [RingBuffer.pushSpan, hok, if_true, List.length_cons]
    rw [ih (s.push v).1 hw' this]

theorem pushAll_eq_pushSpan (ws : List α) (s : RingBuffer α) (hw : s.Wf)
    (hfit : s.size + ws.length ≤ s.cap - 1) :
    s.pushAll ws = (s.pushSpan ws).2 := by
  induction ws generalizing s with
  | nil => simp [RingBuffer.pushAll, RingBuffer.pushSpan]
  | cons v rest ih =>
    have hok : (s.push v).2 = true := by
      by_contra hbad
      rw [Bool.not_eq_true, s.push_fail_iff v hw] at hbad
      have := s.size_lt hw
      simp only [List.length_cons] at hfit
      omega
    obtain ⟨hsz, hw', hcap, -⟩ := s.push_succ_size v hw hok
    have hfit' : (s.push v).1.size + rest.length ≤ (s.push v).1.cap - 1 := by
      rw [hsz, hcap]
      simp only [List.length_cons] at hfit
      omega
    simp only [RingBuffer.pushAll, List.foldl_cons, RingBuffer.pushSpan,
      hok, if_true]
    exact ih (s.push v).1 hw' hfit'

theorem popN_spec (n : Nat) (s : RingBuffer α) (hw : s.Wf)
    (hn : n ≤ s.size) :
    (s.popN n).1 = s.contents.take n ∧ (s.popN n).2.Wf ∧
      (s.popN n).2.contents = s.contents.drop n ∧
      (s.popN n).2.cap = s.cap := by
  induction n generalizing s with
  | zero => exact ⟨rfl, hw, rfl, rfl⟩
  | succ n ih =>
    have hr : s.read_index ≠ s.write_index := by
      intro hcontra
      have h0 := (s.size_eq_zero_iff hw).2 hcontra
      omega
    obtain ⟨hfst, hcons⟩ := s.contents_pop hw hr
    obtain ⟨hsz, hw', hcap, -, -, -⟩ := s.pop_size hw hr
    obtain ⟨ih1, ih2, ih3, ih4⟩ := ih (s.pop).2 hw' (by omega)
    simp only [RingBuffer.popN, hfst]
    refine ⟨?_, ih2, ?_, by rw [ih4, hcap]⟩
    · rw [hcons, List.take_succ_cons, ih1]
    · rw [hcons, List.drop_succ_cons, ih3]

-- ============================================================================
-- Claim C1
-- ============================================================================

/-- C1: For every sequence of single-element push/pop operations on a
`RingBuffer` of capacity `C` (a power of two, as the template constraint
requires), the number of successful pops never exceeds the number of
successful pushes; `push` fails exactly when the buffer currently holds
`C - 1` elements; `size()` equals `(write_index - read_index) mod C`;
and one slot always stays empty (`size ≤ C - 1`). -/
theorem C1_ringbuffer_counts_and_full {α : Type} (cap k : Nat) (d : α)
    (hcap : cap = 2 ^ k) (ops : List (RBOp α)) :
    let res := runOps (RingBuffer.mkEmpty cap d) ops
    res.2.2 ≤ res.2.1 ∧
      (∀ v, ((res.1.push v).2 = false ↔ res.1.size = cap - 1)) ∧
      res.1.size = (res.1.write_index + cap - res.1.read_index) % cap ∧
      res.1.size ≤ cap - 1 := by
  intro res
  have hpos : 0 < cap := by rw [hcap]; positivity
  have hwf : (RingBuffer.mkEmpty cap d).Wf := ⟨hpos, hpos, hpos⟩
  have hsz0 : (RingBuffer.mkEmpty cap d).size = 0 := by
    simp [RingBuffer.size, RingBuffer.mkEmpty]
  obtain ⟨hwres, hcapres, hcount⟩ := runOps_invariant ops _ hwf
  have hwres' : res.1.Wf := hwres
  have hcapres' : res.1.cap = cap := hcapres
  have hcount' : res.1.size + res.2.2
      = (RingBuffer.mkEmpty cap d).size + res.2.1 := hcount
  rw [hsz0] at hcount'
  have hlt := res.1.size_lt hwres'
  rw [hcapres'] at hlt
  refine ⟨by omega, ?_, ?_, by omega⟩
  · intro v
    have h := res.1.push_fail_iff v hwres'
    rw [hcapres'] at h
    exact h
  · show res.1.size = (res.1.write_index + cap - res.1.read_index) % cap
    unfold RingBuffer.size
    rw [hcapres']

/-- Witness for C1 at capacity 4 and a concrete operation sequence. -/
theorem C1_ringbuffer_counts_and_full_witness :
    ((4 : Nat) = 2 ^ 2) ∧
      (let res := runOps (RingBuffer.mkEmpty 4 (0 : Int))
          [RBOp.pushOp 7, RBOp.pushOp 8, RBOp.popOp, RBOp.pushOp 9,
           RBOp.pushOp 10, RBOp.popOp]
       res.2.2 ≤ res.2.1 ∧
         (∀ v, ((res.1.push v).2 = false ↔ res.1.size = 4 - 1)) ∧
         res.1.size = (res.1.write_index + 4 - res.1.read_index) % 4 ∧
         res.1.size ≤ 4 - 1) :=
  ⟨by norm_num,
   C1_ringbuffer_counts_and_full 4 2 0 (by norm_num)
     [RBOp.pushOp 7, RBOp.pushOp 8, RBOp.popOp, RBOp.pushOp 9,
      RBOp.pushOp 10, RBOp.popOp]⟩

-- ============================================================================
-- Claim C10
-- ============================================================================

/-- C10: the ring buffer is FIFO.  For every `k ≤ C - 1`, pushing `k`
values into an empty buffer of capacity `C` — singly (`pushAll`) or via
the span batch push (`pushSpan`) — and then popping `k` times returns
exactly the pushed values in push order; and from any well-formed state
the batch push transfers exactly a prefix of its input. -/
theorem C10_ringbuffer_fifo {α : Type} (cap k : Nat) (d : α)
    (hcap : cap = 2 ^ k) (vs : List α) (hlen : vs.length ≤ cap - 1) :
    ((RingBuffer.mkEmpty cap d).pushSpan vs).1 = vs.length ∧
      (((RingBuffer.mkEmpty cap d).pushSpan vs).2.popN vs.length).1 = vs ∧
      (((RingBuffer.mkEmpty cap d).pushAll vs).popN vs.length).1 = vs ∧
      (∀ (s : RingBuffer α) (ws : List α), s.Wf →
        (s.pushSpan ws).2.contents
          = s.contents ++ ws.take (s.pushSpan ws).1) := by
  have hpos : 0 < cap := by rw [hcap]; positivity
  have hwf : (RingBuffer.mkEmpty cap d).Wf := ⟨hpos, hpos, hpos⟩
  have hsz0 : (RingBuffer.mkEmpty cap d).size = 0 := by
    simp [RingBuffer.size, RingBuffer.mkEmpty]
  have hc0 : (RingBuffer.mkEmpty cap d).contents = [] := by
    unfold RingBuffer.contents
    rw [hsz0]
    simp
  have hfit : (RingBuffer.mkEmpty cap d).size + vs.length
      ≤ (RingBuffer.mkEmpty cap d).cap - 1 := by
    rw [hsz0]
    simpa using hlen
  have hall := pushSpan_all vs _ hwf hfit
  obtain ⟨-, hwf', -, hcont'⟩ := pushSpan_front vs (RingBuffer.mkEmpty cap d) hwf
  rw [hall, hc0, List.nil_append, List.take_length] at hcont'
  have hsz' : vs.length ≤ ((RingBuffer.mkEmpty cap d).pushSpan vs).2.size := by
    have := RingBuffer.contents_length ((RingBuffer.mkEmpty cap d).pushSpan vs).2
    rw [hcont'] at this
    omega
  obtain ⟨hpop1, -, -, -⟩ := popN_spec vs.length _ hwf' hsz'
  rw [hcont'] at hpop1
  refine ⟨hall, by rw [hpop1, List.take_length], ?_, ?_⟩
  · rw [pushAll_eq_pushSpan vs _ hwf hfit, hpop1, List.take_length]
  · intro s ws hswf
    exact (pushSpan_front ws s hswf).2.2.2

/-- Witness for C10 at capacity 8 with five pushed values. -/
theorem C10_ringbuffer_fifo_witness :
    ((8 : Nat) = 2 ^ 3 ∧ ([1, 2, 3, 4, 5] : List Int).length ≤ 8 - 1) ∧
      (((RingBuffer.mkEmpty 8 (0 : Int)).pushSpan [1, 2, 3, 4, 5]).1
          = ([1, 2, 3, 4, 5] : List Int).length ∧
        (((RingBuffer.mkEmpty 8 (0 : Int)).pushSpan
            [1, 2, 3, 4, 5]).2.popN ([1, 2, 3, 4, 5] : List Int).length).1
          = [1, 2, 3, 4, 5] ∧
        (((RingBuffer.mkEmpty 8 (0 : Int)).pushAll
            [1, 2, 3, 4, 5]).popN ([1, 2, 3, 4, 5] : List Int).length).1
          = [1, 2, 3, 4, 5] ∧
        (∀ (s : RingBuffer Int) (ws : List Int), s.Wf →
          (s.pushSpan ws).2.contents
            = s.contents ++ ws.take (s.pushSpan ws).1)) :=
  ⟨⟨by norm_num, by norm_num⟩,
   C10_ringbuffer_fifo 8 3 0 (by norm_num) [1, 2, 3, 4, 5] (by norm_num)⟩

-- ============================================================================
-- Claim C3
-- ============================================================================

theorem WavWriter.writeMany_spec (ns : List Nat) (w : WavWriter)
    (hopen : w.isOpen = true) :
    (w.writeMany ns).isOpen = true ∧
      (w.writeMany ns).samples_written = w.samples_written + ns.sum ∧
      (w.writeMany ns).header = w.header := by
  induction ns generalizing w with
  | nil =>
    refine ⟨hopen, ?_, rfl⟩
    show w.samples_written = w.samples_written + ([] : List Nat).sum
    simp
  | cons n rest ih =>
    have hstep : (w.write n).1
        = { w with
            ops := w.ops ++ [WOp.putSamples n]
            samples_written := w.samples_written + n } := by
      unfold WavWriter.write
      rw [if_pos hopen]
    have hopen2 : (w.write n).1.isOpen = true := by
      rw [hstep]
      exact hopen
    obtain ⟨ih1, ih2, ih3⟩ := ih (w.write n).1 hopen2
    have hsw : (w.write n).1.samples_written = w.samples_written + n := by
      rw [hstep]
    have hhd : (w.write n).1.header = w.header := by
      rw [hstep]
    have hfold : w.writeMany (n :: rest) = (w.write n).1.writeMany rest := by
      unfold WavWriter.writeMany
      rw [List.foldl_cons]
    rw [hfold]
    refine ⟨ih1, ?_, by rw [ih3, hhd]⟩
    rw [ih2, hsw, List.sum_cons]
    omega

theorem WavWriter.close_open_spec (w : WavWriter) (hopen : w.isOpen = true) :
    w.close.header = w.header.finalize (w.samples_written * 4) ∧
      w.close.ops = w.ops
        ++ [WOp.seekTo 0,
            WOp.putHeader (w.header.finalize (w.samples_written * 4))] ∧
      w.close.isOpen = false ∧
      w.close.samples_written = w.samples_written := by
  unfold WavWriter.close
  rw [if_pos hopen]
  exact ⟨rfl, rfl, rfl, rfl⟩

/-- C3: writing `N` samples through the WAV writer (over any sequence of
`write` calls) and closing it yields a header whose `data_size` is
`N * 4` bytes (4 bytes per 32-bit float sample) and whose `file_size` is
`36 + data_size` (the fixed 44-byte header overhead minus 8), with the
final header rewritten at offset 0 by `close`. -/
theorem C3_wav_writer_roundtrip (rate channels : Nat) (ns : List Nat)
    (hN : 36 + ns.sum * 4 < 2 ^ 32) :
    ((WavWriter.create rate channels).writeMany ns).close.header.data_size
        = ns.sum * 4 ∧
      ((WavWriter.create rate channels).writeMany ns).close.header.file_size
        = 36 + ((WavWriter.create rate
          channels).writeMany ns).close.header.data_size ∧
      ((WavWriter.create rate channels).writeMany ns).close.ops
        = ((WavWriter.create rate channels).writeMany ns).ops
          ++ [WOp.seekTo 0,
              WOp.putHeader
                ((WavWriter.create rate channels).writeMany ns).close.header] := by
  obtain ⟨hopen, hsamples, -⟩ :=
    WavWriter.writeMany_spec ns (WavWriter.create rate channels) rfl
  have hsamples2 :
      ((WavWriter.create rate channels).writeMany ns).samples_written
        = ns.sum := by
    have h0 : (WavWriter.create rate channels).samples_written = 0 := rfl
    omega
  obtain ⟨hh, hops, -, -⟩ := WavWriter.close_open_spec _ hopen
  have hds : ((WavWriter.create rate channels).writeMany ns).close.header.data_size
      = ns.sum * 4 := by
    rw [hh, hsamples2]
    show ns.sum * 4 % 2 ^ 32 = ns.sum * 4
    exact Nat.mod_eq_of_lt (by omega)
  refine ⟨hds, ?_, ?_⟩
  · rw [hds, hh, hsamples2]
    show (36 + ns.sum * 4 % 2 ^ 32) % 2 ^ 32 = 36 + ns.sum * 4
    rw [Nat.mod_eq_of_lt (show ns.sum * 4 < 2 ^ 32 by omega)]
    exact Nat.mod_eq_of_lt hN
  · rw [hops, hh]

/-- Witness for C3: two writes of 3 and 5 samples at 48 kHz mono. -/
theorem C3_wav_writer_roundtrip_witness :
    (36 + ([3, 5] : List Nat).sum * 4 < 2 ^ 32) ∧
      (((WavWriter.create 48000 1).writeMany [3, 5]).close.header.data_size
          = ([3, 5] : List Nat).sum * 4 ∧
        ((WavWriter.create 48000 1).writeMany [3, 5]).close.header.file_size
          = 36 + ((WavWriter.create 48000
            1).writeMany [3, 5]).close.header.data_size ∧
        ((WavWriter.create 48000 1).writeMany [3, 5]).close.ops
          = ((WavWriter.create 48000 1).writeMany [3, 5]).ops
            ++ [WOp.seekTo 0,
                WOp.putHeader
                  ((WavWriter.create 48000 1).writeMany [3, 5]).close.header]) :=
  ⟨by norm_num, C3_wav_writer_roundtrip 48000 1 [3, 5] (by norm_num)⟩

-- ============================================================================
-- Claim C4
-- ============================================================================

/-- C4: for both writers, the second `close()` is a no-op — closing an
already-closed writer changes nothing, so the disk finalize (header
rewrite for `WavWriter`; queue flush and thread join for `AsyncWriter`)
happens exactly once. -/
theorem C4_close_idempotent :
    (∀ w : WavWriter, w.close.close = w.close) ∧
      (∀ a : AsyncWriter, a.close.close = a.close) := by
  constructor
  · intro w
    by_cases h : w.isOpen = true <;>
      simp [WavWriter.close, h]
  · intro a
    by_cases h : a.isOpen = true <;>
      simp [AsyncWriter.close, h]

-- ============================================================================
-- Claim C9
-- ============================================================================

/-- C9: `AsyncWriter::write_bytes` never blocks: on an open writer with
a queue below the fixed maximum depth (100) it appends a copy of the
data and returns `true`; when the queue is already at maximum depth it
returns `false` and drops the data, leaving the writer unchanged. -/
theorem C9_asyncwriter_write_bounded (a : AsyncWriter) (data : List Nat)
    (hopen : a.isOpen = true) :
    max_queue_size = 100 ∧
      (a.queue.length < max_queue_size →
        a.write_bytes data = ({ a with queue := a.queue ++ [data] }, true)) ∧
      (max_queue_size ≤ a.queue.length →
        a.write_bytes data = (a, false)) := by
  refine ⟨rfl, ?_, ?_⟩
  · intro hlt
    unfold AsyncWriter.write_bytes
    rw [hopen]
    simp [Nat.not_le.2 hlt]
  · intro hge
    unfold AsyncWriter.write_bytes
    rw [hopen]
    simp [hge]

/-- Witness for C9 on a freshly opened writer with an empty queue. -/
theorem C9_asyncwriter_write_bounded_witness :
    ((AsyncWriter.mk true [] [] 0).isOpen = true) ∧
      (max_queue_size = 100 ∧
        ((AsyncWriter.mk true [] [] 0).queue.length < max_queue_size →
          (AsyncWriter.mk true [] [] 0).write_bytes [1, 2, 3]
            = ({ AsyncWriter.mk true [] [] 0 with
                  queue := (AsyncWriter.mk true [] [] 0).queue ++ [[1, 2, 3]] },
               true)) ∧
        (max_queue_size ≤ (AsyncWriter.mk true [] [] 0).queue.length →
          (AsyncWriter.mk true [] [] 0).write_bytes [1, 2, 3]
            = (AsyncWriter.mk true [] [] 0, false))) :=
  ⟨rfl, C9_asyncwriter_write_bounded (AsyncWriter.mk true [] [] 0) [1, 2, 3] rfl⟩

-- ============================================================================
-- Claim C5
-- ============================================================================

/-- C5: `json_escape` maps `"` to `\"`, `\` to `\\`, newline to `\n`,
tab to `\t`, and the control byte 0x01 to `\u0001`; every byte that is
not a quote, a backslash, or a control character below 0x20 passes
through unchanged. -/
theorem C5_json_escape_table (c : Nat) (_hc : c < 256) (hq : c ≠ 34)
    (hb : c ≠ 92) (hctrl : 32 ≤ c) :
    json_escape [34] = [92, 34] ∧
      json_escape [92] = [92, 92] ∧
      json_escape [10] = [92, 110] ∧
      json_escape [9] = [92, 116] ∧
      json_escape [1] = [92, 117, 48, 48, 48, 49] ∧
      json_escape [c] = [c] := by
  have h8 : c ≠ 8 := by omega
  have h12 : c ≠ 12 := by omega
  have h10 : c ≠ 10 := by omega
  have h13 : c ≠ 13 := by omega
  have h9 : c ≠ 9 := by omega
  have hlt : ¬ c < 32 := by omega
  refine ⟨by decide, by decide, by decide, by decide, by decide, ?_⟩
  simp [json_escape, json_escape_char, hq, hb, h8, h12, h10, h13, h9, hlt]

/-- Witness for C5 with the plain ASCII byte `A` (65). -/
theorem C5_json_escape_table_witness :
    ((65 : Nat) < 256 ∧ (65 : Nat) ≠ 34 ∧ (65 : Nat) ≠ 92 ∧ 32 ≤ (65 : Nat)) ∧
      (json_escape [34] = [92, 34] ∧
        json_escape [92] = [92, 92] ∧
        json_escape [10] = [92, 110] ∧
        json_escape [9] = [92, 116] ∧
        json_escape [1] = [92, 117, 48, 48, 48, 49] ∧
        json_escape [65] = [65]) :=
  ⟨⟨by norm_num, by norm_num, by norm_num, by norm_num⟩,
   C5_json_escape_table 65 (by norm_num) (by norm_num) (by norm_num)
     (by norm_num)⟩

-- ============================================================================
-- Claim C2
-- ============================================================================

/-- C2: from `Idle` (with no active session), `STOP`, `PAUSE` and
`RESUME` each emit exactly one Error telemetry event and leave the
global state — `Idle`, no session — untouched; from `Recording` with an
active session, a second `START` emits an Error event and leaves the
state and the existing session untouched. -/
theorem C2_state_machine_rejections (env : StartEnv) (arg : String)
    (g1 g2 : GState) (sess : Session)
    (h1 : g1.state = RecordingState.Idle) (_h2 : g1.session = none)
    (h3 : g2.state = RecordingState.Recording)
    (_h4 : g2.session = some sess) :
    handle_command env Command.Stop arg g1
        = (g1, [Event.errorEvt "Not recording"]) ∧
      handle_command env Command.Pause arg g1
        = (g1, [Event.errorEvt "Not recording"]) ∧
      handle_command env Command.Resume arg g1
        = (g1, [Event.errorEvt "Not paused"]) ∧
      handle_command env Command.Start arg g2
        = (g2, [Event.errorEvt "Already recording"]) := by
  refine ⟨?_, ?_, ?_, ?_⟩
  · simp [handle_command, cmd_stop_recording, h1]
  · simp [handle_command, cmd_pause_recording, h1]
  · simp [handle_command, cmd_resume_recording, h1]
  · simp [handle_command, cmd_start_recording, h3]

/-- Witness for C2 with concrete Idle and Recording global states. -/
theorem C2_state_machine_rejections_witness :
    ((GState.mk RecordingState.Idle none false).state = RecordingState.Idle ∧
      (GState.mk RecordingState.Idle none false).session = none ∧
      (GState.mk RecordingState.Recording
          (some (Session.mk "s1" "out/s1" 0 (WavWriter.create 48000 1) true [] 0))
          false).state = RecordingState.Recording ∧
      (GState.mk RecordingState.Recording
          (some (Session.mk "s1" "out/s1" 0 (WavWriter.create 48000 1) true [] 0))
          false).session
        = some (Session.mk "s1" "out/s1" 0 (WavWriter.create 48000 1) true [] 0)) ∧
      (handle_command (StartEnv.mk "s2" (Except.ok ()) 7) Command.Stop ""
          (GState.mk RecordingState.Idle none false)
          = (GState.mk RecordingState.Idle none false,
             [Event.errorEvt "Not recording"]) ∧
        handle_command (StartEnv.mk "s2" (Except.ok ()) 7) Command.Pause ""
          (GState.mk RecordingState.Idle none false)
          = (GState.mk RecordingState.Idle none false,
             [Event.errorEvt "Not recording"]) ∧
        handle_command (StartEnv.mk "s2" (Except.ok ()) 7) Command.Resume ""
          (GState.mk RecordingState.Idle none false)
          = (GState.mk RecordingState.Idle none false,
             [Event.errorEvt "Not paused"]) ∧
        handle_command (StartEnv.mk "s2" (Except.ok ()) 7) Command.Start ""
          (GState.mk RecordingState.Recording
            (some (Session.mk "s1" "out/s1" 0 (WavWriter.create 48000 1) true [] 0))
            false)
          = (GState.mk RecordingState.Recording
              (some (Session.mk "s1" "out/s1" 0 (WavWriter.create 48000 1) true [] 0))
              false,
             [Event.errorEvt "Already recording"])) :=
  ⟨⟨rfl, rfl, rfl, rfl⟩,
   C2_state_machine_rejections (StartEnv.mk "s2" (Except.ok ()) 7) ""
     (GState.mk RecordingState.Idle none false)
     (GState.mk RecordingState.Recording
       (some (Session.mk "s1" "out/s1" 0 (WavWriter.create 48000 1) true [] 0))
       false)
     (Session.mk "s1" "out/s1" 0 (WavWriter.create 48000 1) true [] 0)
     rfl rfl rfl rfl⟩

-- ============================================================================
-- Claim C6
-- ============================================================================

/-- C6: when the audio writer cannot be created during a `START` from
`Idle`, the start is aborted: one Error telemetry event is emitted and
the global state (recording state, absent session) is exactly what it
was before the command. -/
theorem C6_start_aborts_on_writer_failure (env : StartEnv) (arg : String)
    (g : GState) (e : String)
    (h1 : g.state = RecordingState.Idle) (_h2 : g.session = none)
    (hw : env.writer_result = Except.error e) :
    handle_command env Command.Start arg g
      = (g, [Event.errorEvt ("Failed to create audio file: " ++ e)]) := by
  simp [handle_command, cmd_start_recording, h1, hw]

/-- Witness for C6 with a concrete failing writer creation. -/
theorem C6_start_aborts_on_writer_failure_witness :
    ((GState.mk RecordingState.Idle none false).state = RecordingState.Idle ∧
      (GState.mk RecordingState.Idle none false).session = none ∧
      (StartEnv.mk "s3" (Except.error "open failed") 9).writer_result
        = Except.error "open failed") ∧
      handle_command (StartEnv.mk "s3" (Except.error "open failed") 9)
          Command.Start "/tmp/out" (GState.mk RecordingState.Idle none false)
        = (GState.mk RecordingState.Idle none false,
           [Event.errorEvt ("Failed to create audio file: " ++ "open failed")]) :=
  ⟨⟨rfl, rfl, rfl⟩,
   C6_start_aborts_on_writer_failure
     (StartEnv.mk "s3" (Except.error "open failed") 9) "/tmp/out"
     (GState.mk RecordingState.Idle none false) "open failed" rfl rfl rfl⟩

-- ============================================================================
-- Claim C7
-- ============================================================================

theorem process_frame_no_session_or_not_recording (fe : FrameEnv) (l : Nat)
    (g : GState)
    (h : g.session = none ∨ g.state ≠ RecordingState.Recording) :
    process_audio_frame fe l g = (g, []) := by
  unfold process_audio_frame
  rcases hs : g.session with _ | sess
  · rfl
  · dsimp only
    rcases h with h | h
    · rw [hs] at h
      cases h
    · rw [if_pos h]

theorem process_frame_recording_facts (fe : FrameEnv) (l : Nat)
    (g : GState) (sess : Session)
    (h1 : g.state = RecordingState.Recording) (h2 : g.session = some sess) :
    has_level (process_audio_frame fe l g).2
        = decide (sess.frame_count % 5 = 0) ∧
      count_levels (process_audio_frame fe l g).2
        = (if sess.frame_count % 5 = 0 then 1 else 0) ∧
      (process_audio_frame fe l g).1.state = RecordingState.Recording ∧
      (∃ sess2, (process_audio_frame fe l g).1.session = some sess2 ∧
        sess2.frame_count = sess.frame_count + 1) := by
  unfold process_audio_frame
  simp only [h2]
  rw [if_neg (by rw [h1]; exact fun hc => hc rfl)]
  refine ⟨?_, ?_, h1, ⟨_, rfl, rfl⟩⟩
  · by_cases hc : sess.frame_count % 5 = 0 <;>
      cases htp : sess.transcriber_present <;>
        cases htr : fe.transcribed <;>
          simp [has_level, hc, htp, htr]
  · by_cases hc : sess.frame_count % 5 = 0 <;>
      cases htp : sess.transcriber_present <;>
        cases htr : fe.transcribed <;>
          simp [count_levels, hc, htp, htr]

theorem run_frames_recording (fe : Nat → FrameEnv) (len : Nat → Nat)
    (n : Nat) :
    ∀ (i c : Nat) (g : GState) (sess : Session),
      g.state = RecordingState.Recording → g.session = some sess →
      sess.frame_count = c →
      ((run_frames fe len i n g).2.map has_level
          = (List.range n).map (fun j => decide ((c + j) % 5 = 0))) ∧
        ((run_frames fe len i n g).2.map count_levels
          = (List.range n).map (fun j => if (c + j) % 5 = 0 then 1 else 0)) ∧
        ((run_frames fe len i n g).1.state = RecordingState.Recording) ∧
        (∃ sess2, (run_frames fe len i n g).1.session = some sess2 ∧
          sess2.frame_count = c + n) := by
  induction n with
  | zero =>
    intro i c g sess h1 h2 h3
    exact ⟨rfl, rfl, h1, ⟨sess, h2, by omega⟩⟩
  | succ n ih =>
    intro i c g sess h1 h2 h3
    obtain ⟨hl, hcnt, hst, ⟨sess2, hs2, hf2⟩⟩ :=
      process_frame_recording_facts (fe i) (len i) g sess h1 h2
    obtain ⟨ihl, ihc, ihst, ⟨sess3, hs3, hf3⟩⟩ :=
      ih (i + 1) (c + 1) (process_audio_frame (fe i) (len i) g).1 sess2
        hst hs2 (by omega)
    have hrun : run_frames fe len i (n + 1) g
        = ((run_frames fe len (i + 1) n
              (process_audio_frame (fe i) (len i) g).1).1,
           (process_audio_frame (fe i) (len i) g).2
             :: (run_frames fe len (i + 1) n
                  (process_audio_frame (fe i) (len i) g).1).2) := rfl
    rw [hrun]
    refine ⟨?_, ?_, ihst, ⟨sess3, hs3, by omega⟩⟩
    · rw [List.map_cons, hl, h3, ihl, List.range_succ_eq_map, List.map_cons,
        List.map_map]
      congr 1
      apply List.map_congr_left
      intro a _
      simp only [Function.comp_apply]
      have harg : c + 1 + a = c + Nat.succ a := by omega
      rw [harg]
    · rw [List.map_cons, hcnt, h3, ihc, List.range_succ_eq_map, List.map_cons,
        List.map_map]
      congr 1
      apply List.map_congr_left
      intro a _
      simp only [Function.comp_apply]
      have harg : c + 1 + a = c + Nat.succ a := by omega
      rw [harg]

/-- C7: with the level-emission interval of 5 and a session whose frame
counter starts at 0, processing 12 frames while `Recording` (the state
and session stay live throughout) emits exactly 3 Level telemetry
events, at frames 0, 5 and 10 (zero-indexed); the counter reaches 12;
and a frame processed with no session or while not `Recording` is a
complete no-op, so the counter advances only while recording. -/
theorem C7_level_cadence (fe : Nat → FrameEnv) (len : Nat → Nat)
    (g : GState) (sess : Session)
    (h1 : g.state = RecordingState.Recording)
    (h2 : g.session = some sess) (h3 : sess.frame_count = 0) :
    ((run_frames fe len 0 12 g).2.map has_level
        = [true, false, false, false, false, true, false, false, false,
           false, true, false]) ∧
      (((run_frames fe len 0 12 g).2.map count_levels).sum = 3) ∧
      (∃ sess2, (run_frames fe len 0 12 g).1.session = some sess2 ∧
        sess2.frame_count = 12) ∧
      (∀ (fe0 : FrameEnv) (l : Nat) (g0 : GState),
        g0.session = none ∨ g0.state ≠ RecordingState.Recording →
        process_audio_frame fe0 l g0 = (g0, [])) := by
  obtain ⟨hl, hcnt, -, hsess⟩ :=
    run_frames_recording fe len 12 0 0 g sess h1 h2 h3
  refine ⟨?_, ?_, by simpa using hsess,
    fun fe0 l g0 h => process_frame_no_session_or_not_recording fe0 l g0 h⟩
  · rw [hl]
    decide
  · rw [hcnt]
    decide

/-- Witness for C7 with a concrete recording state, constant level and
no transcription output. -/
theorem C7_level_cadence_witness :
    ((GState.mk RecordingState.Recording
        (some (Session.mk "s7" "out/s7" 0 (WavWriter.create 48000 1) true [] 0))
        false).state = RecordingState.Recording ∧
      (GState.mk RecordingState.Recording
        (some (Session.mk "s7" "out/s7" 0 (WavWriter.create 48000 1) true [] 0))
        false).session
        = some (Session.mk "s7" "out/s7" 0 (WavWriter.create 48000 1) true [] 0) ∧
      (Session.mk "s7" "out/s7" 0 (WavWriter.create 48000 1) true [] 0).frame_count
        = 0) ∧
      (((run_frames (fun _ => FrameEnv.mk (-42) none) (fun _ => 1024) 0 12
            (GState.mk RecordingState.Recording
              (some (Session.mk "s7" "out/s7" 0 (WavWriter.create 48000 1) true [] 0))
              false)).2.map has_level
          = [true, false, false, false, false, true, false, false, false,
             false, true, false]) ∧
        (((run_frames (fun _ => FrameEnv.mk (-42) none) (fun _ => 1024) 0 12
            (GState.mk RecordingState.Recording
              (some (Session.mk "s7" "out/s7" 0 (WavWriter.create 48000 1) true [] 0))
              false)).2.map count_levels).sum = 3) ∧
        (∃ sess2,
          (run_frames (fun _ => FrameEnv.mk (-42) none) (fun _ => 1024) 0 12
            (GState.mk RecordingState.Recording
              (some (Session.mk "s7" "out/s7" 0 (WavWriter.create 48000 1) true [] 0))
              false)).1.session = some sess2 ∧ sess2.frame_count = 12) ∧
        (∀ (fe0 : FrameEnv) (l : Nat) (g0 : GState),
          g0.session = none ∨ g0.state ≠ RecordingState.Recording →
          process_audio_frame fe0 l g0 = (g0, []))) :=
  ⟨⟨rfl, rfl, rfl⟩,
   C7_level_cadence (fun _ => FrameEnv.mk (-42) none) (fun _ => 1024)
     (GState.mk RecordingState.Recording
       (some (Session.mk "s7" "out/s7" 0 (WavWriter.create 48000 1) true [] 0))
       false)
     (Session.mk "s7" "out/s7" 0 (WavWriter.create 48000 1) true [] 0)
     rfl rfl rfl⟩

-- ============================================================================
-- Claim C8
-- ============================================================================

/-- C8: `try_get_data()` returns a frame only when at least half a
period's worth of samples (`buffer_frames * channels / 2`) is buffered,
and the frame it returns holds exactly
`min(available, buffer_frames * channels)` samples.  (The call is
modelled as a total function: it never waits.) -/
theorem C8_try_get_data_half_period (d : AudioDevice) (hw : d.ring.Wf)
    (frame : List Int) (h : (d.try_get_data).1 = some frame) :
    d.config.buffer_frames * d.config.channels / 2 ≤ d.ring.size ∧
      frame.length
        = min d.ring.size (d.config.buffer_frames * d.config.channels) := by
  unfold AudioDevice.try_get_data at h
  by_cases hdr : d.data_ready = false
  · rw [if_pos hdr] at h
    cases h
  · rw [if_neg hdr] at h
    by_cases hav : d.ring.size
        < d.config.buffer_frames * d.config.channels / 2
    · rw [if_pos hav] at h
      cases h
    · rw [if_neg hav] at h
      have hto : min d.ring.size (d.config.buffer_frames * d.config.channels)
          ≤ d.ring.size := Nat.min_le_left _ _
      have hsz : min d.ring.size (d.config.buffer_frames * d.config.channels)
          ≤ (RingBuffer.contents d.ring).length := by
        rw [RingBuffer.contents_length]
        exact hto
      obtain ⟨hpop, -, -, -⟩ := popN_spec
        (min d.ring.size (d.config.buffer_frames * d.config.channels))
        d.ring hw hto
      have hframe : frame = (d.ring.popN
          (min d.ring.size (d.config.buffer_frames * d.config.channels))).1 := by
        simpa using h.symm
      refine ⟨Nat.le_of_not_lt hav, ?_⟩
      rw [hframe, hpop, List.length_take, RingBuffer.contents_length]
      omega

/-- Witness for C8: a device with 3 buffered samples, a period of 4
samples (2 frames x 2 channels), data flagged ready. -/
theorem C8_try_get_data_half_period_witness :
    ((AudioDevice.mk (DeviceConfig.mk 48000 2 2) true
        (RingBuffer.mk 8 (fun j => Int.ofNat j) 3 0)).ring.Wf ∧
      ((AudioDevice.mk (DeviceConfig.mk 48000 2 2) true
        (RingBuffer.mk 8 (fun j => Int.ofNat j) 3 0)).try_get_data).1
        = some [0, 1, 2]) ∧
      ((AudioDevice.mk (DeviceConfig.mk 48000 2 2) true
          (RingBuffer.mk 8 (fun j => Int.ofNat j) 3 0)).config.buffer_frames
            * (AudioDevice.mk (DeviceConfig.mk 48000 2 2) true
                (RingBuffer.mk 8 (fun j => Int.ofNat j) 3 0)).config.channels / 2
          ≤ (AudioDevice.mk (DeviceConfig.mk 48000 2 2) true
              (RingBuffer.mk 8 (fun j => Int.ofNat j) 3 0)).ring.size ∧
        ([0, 1, 2] : List Int).length
          = min (AudioDevice.mk (DeviceConfig.mk 48000 2 2) true
                (RingBuffer.mk 8 (fun j => Int.ofNat j) 3 0)).ring.size
              ((AudioDevice.mk (DeviceConfig.mk 48000 2 2) true
                (RingBuffer.mk 8 (fun j => Int.ofNat j) 3 0)).config.buffer_frames
                * (AudioDevice.mk (DeviceConfig.mk 48000 2 2) true
                    (RingBuffer.mk 8 (fun j => Int.ofNat j) 3 0)).config.channels)) :=
  ⟨⟨by decide, rfl⟩,
   C8_try_get_data_half_period
     (AudioDevice.mk (DeviceConfig.mk 48000 2 2) true
       (RingBuffer.mk 8 (fun j => Int.ofNat j) 3 0))
     (by decide) [0, 1, 2] rfl⟩
